import Mathlib

/-!
Verification of the lcd1602 HD44780 driver and its synchronized wrapper.

The driver is embedded shallowly: every externally observable effect of a
driver operation (a GPIO pin transition, a timed wait, a byte written on the
bus) is recorded as an event in a list, and each source function is
translated into a Lean function producing the event list it would emit.
Durations are modelled in nanoseconds, exactly as Go's time.Duration counts
them.  Strings are modelled as lists of bytes (Go strings are byte
sequences); the UTF-8 decoding performed by Go's range-over-string loop and
the rune counting performed by the fmt package's width padding are embedded
faithfully, including the replacement-rune behaviour on invalid bytes.
-/

set_option maxRecDepth 8000

namespace LCD1602

/-- One microsecond in nanoseconds, as in Go's time.Microsecond. -/
def microsecond : Nat := 1000

/-- One millisecond in nanoseconds, as in Go's time.Millisecond. -/
def millisecond : Nat := 1000000

/-- EnableDelay = 1 * time.Microsecond from the source. -/
def EnableDelay : Nat := 1 * microsecond

/-- ExecutionTimeDefault = 40 * time.Microsecond from the source. -/
def ExecutionTimeDefault : Nat := 40 * microsecond

/-- ExecutionTimeReturnHome = 1520 * time.Microsecond from the source. -/
def ExecutionTimeReturnHome : Nat := 1520 * microsecond

/-- Settle delay at the end of Initialize: time.Sleep(10 * time.Millisecond). -/
def initSettleDelay : Nat := 10 * millisecond

/-- Line1 = LineNumber(0x80), the DDRAM base address of the first line. -/
def Line1 : Nat := 0x80

/-- Line2 = LineNumber(0xC0), the DDRAM base address of the second line. -/
def Line2 : Nat := 0xC0

/-- RSData = true: the register-select level for sending data. -/
def RSData : Bool := true

/-- RSInstruction = false: the register-select level for sending an instruction. -/
def RSInstruction : Bool := false

/-- Bus-level observable actions: one call to LCD.Write (a byte together with
the register-select mode) or one timed wait between such calls. -/
inductive Op
  | write (data : Nat) (mode : Bool)
  | sleep (ns : Nat)
deriving DecidableEq, Repr

/-- Pin-level observable actions inside one LCD.Write call: driving the
register-select pin, driving data pin number i, driving the enable pin, or a
timed wait. -/
inductive PinEv
  | rs (level : Bool)
  | data (i : Nat) (level : Bool)
  | enable (level : Bool)
  | sleep (ns : Nat)
deriving DecidableEq, Repr

/-- setBitToPin from the source: the pin is driven High exactly when
data & position == position, otherwise Low.  The resulting pin level is
returned. -/
def setBitToPin (data position : Nat) : Bool := data &&& position == position

/-- LCD.enable from the source: sleep EnableDelay, raise E, sleep EnableDelay,
lower E, sleep the supplied execution time. -/
def enableEvs (executionTime : Nat) : List PinEv :=
  [PinEv.sleep EnableDelay, PinEv.enable true, PinEv.sleep EnableDelay,
   PinEv.enable false, PinEv.sleep executionTime]

/-- LCD.Write from the source, for a bus of numPins data pins: set RS from the
mode, drive every data pin low, then either (4 pins) present the high nibble
with offsets 0x10 << i, pulse enable, present the low nibble with offsets
0x01 << i, and pulse enable again, or (otherwise) present all bits with
offsets 0x01 << i and pulse enable once. -/
def writeEvs (numPins : Nat) (data : Nat) (mode : Bool) : List PinEv :=
  PinEv.rs mode ::
    ((List.range numPins).map (fun i => PinEv.data i false) ++
      (if numPins = 4 then
        (List.range numPins).map
            (fun i => PinEv.data i (setBitToPin data (0x10 <<< i))) ++
          enableEvs ExecutionTimeDefault ++
          (List.range numPins).map
            (fun i => PinEv.data i (setBitToPin data (0x01 <<< i)))
      else
        (List.range numPins).map
          (fun i => PinEv.data i (setBitToPin data (0x01 <<< i)))) ++
      enableEvs ExecutionTimeDefault)

/-- Number of rising edges of the enable pin in a pin-event list: each one is
one enable pulse latched by the controller. -/
def enableRises (evs : List PinEv) : Nat :=
  evs.countP (fun e => match e with | PinEv.enable true => true | _ => false)

/-- LCD.Reset from the source: Write 0x33 as an instruction, sleep the default
execution time, Write 0x32 as an instruction, sleep the default execution
time. -/
def resetOps : List Op :=
  [Op.write 0x33 RSInstruction, Op.sleep ExecutionTimeDefault,
   Op.write 0x32 RSInstruction, Op.sleep ExecutionTimeDefault]

/-- Instruction byte built by LCD.EntryModeSet: 0x04, or-ed with 0x02 when
increment is set and with 0x01 when shift is set. -/
def entryModeInstr (increment shift : Bool) : Nat :=
  ((0x04 : Nat) ||| (if increment then 0x02 else 0)) |||
    (if shift then 0x01 else 0)

/-- Instruction byte built by LCD.DisplayMode: 0x08, or-ed with 0x04 when
display is set, 0x02 when cursor is set, 0x01 when blink is set. -/
def displayModeInstr (display cursor blink : Bool) : Nat :=
  (((0x08 : Nat) ||| (if display then 0x04 else 0)) |||
      (if cursor then 0x02 else 0)) |||
    (if blink then 0x01 else 0)

/-- LCD.ReturnHome from the source: Write 0x02 as an instruction, then sleep
the return-home execution time. -/
def returnHomeOps : List Op :=
  [Op.write 0x02 RSInstruction, Op.sleep ExecutionTimeReturnHome]

/-- LCD.Clear from the source: Write 0x01 as an instruction. -/
def clearOps : List Op :=
  [Op.write 0x01 RSInstruction]

/-- LCD.Initialize from the source: Reset, EntryModeSet(true, false),
DisplayMode(true, false, false), Write 0x28 as an instruction, ReturnHome,
Clear, and a final 10 ms settle sleep. -/
def initializeOps : List Op :=
  resetOps ++
    [Op.write (entryModeInstr true false) RSInstruction,
     Op.write (displayModeInstr true false false) RSInstruction,
     Op.write 0x28 RSInstruction] ++
    returnHomeOps ++ clearOps ++ [Op.sleep initSettleDelay]

/-- Continuation-byte test of Go's UTF-8 decoder: bytes 0x80 through 0xBF. -/
def isCont (b : Nat) : Bool := 0x80 ≤ b && b ≤ 0xBF

/-- The replacement rune U+FFFD produced by Go for an invalid byte. -/
def runeError : Nat := 0xFFFD

/-- First-continuation acceptance for a three-byte sequence, per Go's utf8
tables: 0xE0 requires 0xA0..0xBF, 0xED requires 0x80..0x9F, the rest of
0xE1..0xEF require 0x80..0xBF. -/
def accept3 (b0 b1 : Nat) : Bool :=
  if b0 = 0xE0 then 0xA0 ≤ b1 && b1 ≤ 0xBF
  else if b0 = 0xED then 0x80 ≤ b1 && b1 ≤ 0x9F
  else isCont b1

/-- First-continuation acceptance for a four-byte sequence, per Go's utf8
tables: 0xF0 requires 0x90..0xBF, 0xF4 requires 0x80..0x8F, 0xF1..0xF3
require 0x80..0xBF. -/
def accept4 (b0 b1 : Nat) : Bool :=
  if b0 = 0xF0 then 0x90 ≤ b1 && b1 ≤ 0xBF
  else if b0 = 0xF4 then 0x80 ≤ b1 && b1 ≤ 0x8F
  else isCont b1

/-- Value of a two-byte UTF-8 sequence. -/
def rune2 (b0 b1 : Nat) : Nat := ((b0 &&& 0x1F) <<< 6) ||| (b1 &&& 0x3F)

/-- Value of a three-byte UTF-8 sequence. -/
def rune3 (b0 b1 b2 : Nat) : Nat :=
  ((b0 &&& 0x0F) <<< 12) ||| ((b1 &&& 0x3F) <<< 6) ||| (b2 &&& 0x3F)

/-- Value of a four-byte UTF-8 sequence. -/
def rune4 (b0 b1 b2 b3 : Nat) : Nat :=
  ((b0 &&& 0x07) <<< 18) ||| ((b1 &&& 0x3F) <<< 12) |||
    ((b2 &&& 0x3F) <<< 6) ||| (b3 &&& 0x3F)

/-- One pass of Go's string decode loop, structurally recursive on a fuel
bound: each step consumes at least one byte, so any fuel at least the byte
length decodes the whole string.  ASCII bytes decode to themselves,
well-formed multi-byte sequences decode to their rune and consume their
bytes, and every invalid or truncated leading byte decodes to U+FFFD
consuming exactly one byte, exactly as utf8.DecodeRuneInString does. -/
def decodeLoop : Nat → List Nat → List Nat
  | _, [] => []
  | 0, _ :: _ => []
  | fuel + 1, b0 :: rest =>
    if b0 < 0x80 then b0 :: decodeLoop fuel rest
    else if b0 < 0xC2 then runeError :: decodeLoop fuel rest
    else if b0 ≤ 0xDF then
      match rest with
      | b1 :: rest2 =>
        if isCont b1 then rune2 b0 b1 :: decodeLoop fuel rest2
        else runeError :: decodeLoop fuel rest
      | [] => [runeError]
    else if b0 ≤ 0xEF then
      match rest with
      | b1 :: b2 :: rest3 =>
        if accept3 b0 b1 && isCont b2 then
          rune3 b0 b1 b2 :: decodeLoop fuel rest3
        else runeError :: decodeLoop fuel rest
      | _ => runeError :: decodeLoop fuel rest
    else if b0 ≤ 0xF4 then
      match rest with
      | b1 :: b2 :: b3 :: rest4 =>
        if accept4 b0 b1 && isCont b2 && isCont b3 then
          rune4 b0 b1 b2 b3 :: decodeLoop fuel rest4
        else runeError :: decodeLoop fuel rest
      | _ => runeError :: decodeLoop fuel rest
    else runeError :: decodeLoop fuel rest

/-- The rune sequence Go's range-over-string loop iterates for a byte
string. -/
def decodeRunes (s : List Nat) : List Nat := decodeLoop s.length s

/-- Rune count of a byte string, as utf8.RuneCountInString computes it and as
the fmt package uses it to measure width. -/
def runeCount (s : List Nat) : Nat := (decodeRunes s).length

/-- Result of Go's fmt.Sprintf with a right-justifying width verb on string s:
when the rune count of s is below the width, that many spaces are prepended;
otherwise s is unchanged. -/
def leftPad (width : Nat) (s : List Nat) : List Nat :=
  List.replicate (width - runeCount s) 0x20 ++ s

/-- The byte string WriteLine actually emits: left-padded by fmt, then cut to
the first width bytes by the slice expression s[:l.LineWidth]. -/
def formatLine (width : Nat) (s : List Nat) : List Nat :=
  (leftPad width s).take width

/-- LCD.WriteLine from the source: pad and slice the text, write the line
address byte as an instruction, then write each rune of the resulting byte
string (truncated to uint8) as data. -/
def writeLineOps (width : Nat) (s : List Nat) (line : Nat) : List Op :=
  Op.write line RSInstruction ::
    (decodeRunes (formatLine width s)).map (fun c => Op.write (c % 256) RSData)

/-- Character from the source: an array of eight byte rows defining a glyph. -/
def Character : Type := Fin 8 → Nat

/-- A sample glyph used to instantiate theorems at concrete inputs. -/
def glyph0 : Character := fun _ => 0x15

/-- LCD.CreateChar from the source: positions above 7 return immediately with
no writes; otherwise one instruction write of 0x40 | (position << 3) followed
by the eight rows as data writes. -/
def createCharOps (position : Nat) (c : Character) : List Op :=
  if position > 7 then []
  else
    Op.write (0x40 ||| (position <<< 3)) RSInstruction ::
      (List.ofFn c).map (fun x => Op.write x RSData)

/-- Number of instruction writes (mode false) in a bus-operation list. -/
def instrWrites (ops : List Op) : Nat :=
  ops.countP (fun o => match o with | Op.write _ false => true | _ => false)

/-- Number of data writes (mode true) in a bus-operation list. -/
def dataWrites (ops : List Op) : Nat :=
  ops.countP (fun o => match o with | Op.write _ true => true | _ => false)

/-- One iteration of the SetCustomCharacters loop over n characters at index
i: the offset is 8 - n + i as a machine integer; a negative offset is skipped
(continue), otherwise CreateChar is called at the offset. -/
def customCharEntry (n i : Nat) (c : Character) : List Op :=
  if (8 : Int) - (n : Int) + (i : Int) < 0 then []
  else createCharOps ((8 : Int) - (n : Int) + (i : Int)).toNat c

/-- SetCustomCharacters from the source: iterate the supplied characters with
their indices and concatenate what each loop iteration emits. -/
def setCustomCharactersOps (chars : List Character) : List Op :=
  chars.enum.flatMap (fun p => customCharEntry chars.length p.1 p.2)

/-- Pin-configuration actions performed by initPins: setting a pin to output
direction. -/
inductive CfgEv
  | output (pin : Nat)
deriving DecidableEq, Repr

/-- The LCD structure from the source: register-select pin, enable pin, data
pins, line width. -/
structure LCD where
  rs : Nat
  e : Nat
  dataPins : List Nat
  lineWidth : Nat
deriving DecidableEq, Repr

/-- New from the source: a data pin list whose length is neither 4 nor 8
fails with the pin-count error before any pin is configured; otherwise the
LCD value is built and initPins configures RS, E and each data pin as
outputs, in that order. -/
def New (rs e : Nat) (data : List Nat) (linewidth : Nat) :
    Except String LCD × List CfgEv :=
  if data.length ≠ 4 ∧ data.length ≠ 8 then
    (Except.error "LCD requires four or eight datapins", [])
  else
    (Except.ok ⟨rs, e, data, linewidth⟩,
      CfgEv.output rs :: CfgEv.output e :: data.map CfgEv.output)

/-- The lock selected by the switch statement in SynchronizedLCD.Animate (and
released by the matching switch after the loop): lock 1 for Line1, lock 2 for
Line2, and no lock at all for any other line value, since the switch has no
default case. -/
def lockChoice (line : Nat) : Option Nat :=
  if line = Line1 then some 1 else if line = Line2 then some 2 else none

/-- Observable actions of the synchronized wrapper: acquiring or releasing a
per-line lock, emitting one frame's bus operations, the animation's
inter-frame delay, and sending on the completion channel. -/
inductive SyncEv
  | lock (i : Nat)
  | unlock (i : Nat)
  | frame (ops : List Op)
  | frameDelay
  | signalDone
deriving DecidableEq, Repr

/-- SynchronizedLCD.Animate from the source, with the goroutine's execution
sequentialized and the animation modelled by the list of frame contents it
yields before Done becomes true: the switch acquires the lock selected by
lockChoice, each frame is written through WriteLine at the raw line value
followed by the animation delay, the matching switch releases the lock, and
true is sent once on the done channel. -/
def animateEvs (width : Nat) (frames : List (List Nat)) (line : Nat) :
    List SyncEv :=
  (match lockChoice line with | some i => [SyncEv.lock i] | none => []) ++
    frames.flatMap
      (fun f => [SyncEv.frame (writeLineOps width f line), SyncEv.frameDelay]) ++
    (match lockChoice line with | some i => [SyncEv.unlock i] | none => []) ++
    [SyncEv.signalDone]

/-- Byte string of two three-byte UTF-8 characters (U+554A twice): six bytes,
two runes. -/
def cjk2 : List Nat := [0xE5, 0x95, 0x8A, 0xE5, 0x95, 0x8A]

/-- Byte string of three three-byte UTF-8 characters (U+554A three times):
nine bytes, three runes. -/
def cjk3 : List Nat := [0xE5, 0x95, 0x8A, 0xE5, 0x95, 0x8A, 0xE5, 0x95, 0x8A]

/-- A three-element character list, used to exercise SetCustomCharacters with
fewer than eight glyphs. -/
def chars3 : List Character := [glyph0, glyph0, glyph0]

/-- A nine-element character list, used to exercise SetCustomCharacters with
more than eight glyphs. -/
def chars9 : List Character := List.replicate 9 glyph0

/-- Each step of the decode loop consumes at least one byte, so the decoded
rune sequence is never longer than the byte string, whatever the fuel. -/
theorem decodeLoop_length_le (fuel : Nat) :
    ∀ s : List Nat, (decodeLoop fuel s).length ≤ s.length := by
  induction fuel with
  | zero => intro s; cases s <;> simp [decodeLoop]
  | succ n ih =>
    intro s
    cases s with
    | nil => simp [decodeLoop]
    | cons b0 rest =>
      simp only [decodeLoop]
      repeat' split
      all_goals simp only [List.length_cons, List.length_nil]
      all_goals first
        | omega
        | (refine le_trans (Nat.add_le_add_right (ih _) 1) ?_
           try simp only [List.length_cons]
           omega)

/-- The rune count of a byte string never exceeds its byte length. -/
theorem decodeRunes_length_le (s : List Nat) : (decodeRunes s).length ≤ s.length :=
  decodeLoop_length_le s.length s

/-- The byte string WriteLine emits is always exactly width bytes long: the
fmt padding brings the byte length to at least the width (padding one byte
per missing rune, and a string always has at least as many bytes as runes),
and the slice then cuts it to exactly the width. -/
theorem formatLine_length (width : Nat) (s : List Nat) :
    (formatLine width s).length = width := by
  have h := decodeRunes_length_le s
  simp only [formatLine, leftPad, runeCount, List.length_take,
    List.length_append, List.length_replicate]
  omega

/-- Claim C1: for every input text, WriteLine pads the text on the left with
spaces (or truncates) to exactly the configured line width, then emits the
target line's base address as one instruction write followed by one data
write per character of the formatted text; in particular, write-line of the
text consisting of the two bytes of "hi" to Line1 on a width-16 display
sends the Line1 base-address instruction followed by 16 data writes encoding
14 spaces then the two characters. -/
theorem writeLine_pads_to_width (width : Nat) (s : List Nat) (line : Nat) :
    (formatLine width s).length = width ∧
    writeLineOps width s line =
      Op.write line RSInstruction ::
        (decodeRunes (formatLine width s)).map
          (fun c => Op.write (c % 256) RSData) ∧
    writeLineOps 16 [0x68, 0x69] Line1 =
      Op.write 0x80 RSInstruction ::
        (List.replicate 14 (Op.write 0x20 RSData) ++
          [Op.write 0x68 RSData, Op.write 0x69 RSData]) :=
  ⟨formatLine_length width s, rfl, by decide⟩

/-- Claim C2: for every byte and mode, Write sets the register-select pin to
the mode, first drives all data pins low, and then with 4 data pins presents
the high nibble using offsets 0x10 shifted by the pin index, pulses enable,
presents the low nibble using offsets 0x01 shifted by the pin index, and
pulses enable again — exactly two enable pulses — while with 8 data pins it
presents all 8 bits using offsets 0x01 shifted by the pin index and pulses
enable exactly once; the selected bit offsets present exactly the byte's
high-nibble respectively full bit pattern. -/
theorem write_enable_pulses :
    ∀ d < 256, ∀ m : Bool,
      enableRises (writeEvs 4 d m) = 2 ∧
      enableRises (writeEvs 8 d m) = 1 ∧
      (writeEvs 4 d m).take 5 =
        PinEv.rs m :: (List.range 4).map (fun i => PinEv.data i false) ∧
      (writeEvs 8 d m).take 9 =
        PinEv.rs m :: (List.range 8).map (fun i => PinEv.data i false) ∧
      (∀ i < 4, setBitToPin d (0x10 <<< i) = d.testBit (4 + i)) ∧
      (∀ i < 8, setBitToPin d (0x01 <<< i) = d.testBit i) := by
  decide

/-- Witness for claim C2 at the concrete byte 0x4E in data mode. -/
theorem write_enable_pulses_w :
    enableRises (writeEvs 4 0x4E true) = 2 ∧
    enableRises (writeEvs 8 0x4E true) = 1 :=
  ⟨(write_enable_pulses 0x4E (by decide) true).1,
   (write_enable_pulses 0x4E (by decide) true).2.1⟩

/-- Claim C3: Initialize performs exactly, in order: the reset sequence (the
two instruction writes 0x33 and 0x32 with the default execution delay after
each), entry-mode-set with increment and without shift (byte 0x06),
display-mode-set with display on, cursor off, blink off (byte 0x0C), the
explicit DDRAM-address instruction write 0x28, return-home (0x02 with the
longer 1520 microsecond delay), clear (0x01), and a final 10 millisecond
settle delay. -/
theorem initialize_sequence :
    initializeOps =
      [Op.write 0x33 RSInstruction, Op.sleep ExecutionTimeDefault,
       Op.write 0x32 RSInstruction, Op.sleep ExecutionTimeDefault,
       Op.write (entryModeInstr true false) RSInstruction,
       Op.write (displayModeInstr true false false) RSInstruction,
       Op.write 0x28 RSInstruction,
       Op.write 0x02 RSInstruction, Op.sleep ExecutionTimeReturnHome,
       Op.write 0x01 RSInstruction, Op.sleep initSettleDelay] ∧
    entryModeInstr true false = 0x06 ∧
    displayModeInstr true false false = 0x0C ∧
    ExecutionTimeReturnHome = 1520 * microsecond ∧
    initSettleDelay = 10 * millisecond := by
  decide

/-- Claim C4: the enable pulse always performs exactly a wait of the fixed
setup delay, a rise of the enable pin, the same wait again, a fall of the
enable pin, and a wait of the supplied execution time; and the timing
constants are bit-exact: default execution delay 40 microseconds, return-home
delay 1520 microseconds, enable setup and hold delay 1 microsecond,
post-clear settle delay 10 milliseconds. -/
theorem enable_pulse_timing (t : Nat) :
    enableEvs t =
      [PinEv.sleep EnableDelay, PinEv.enable true, PinEv.sleep EnableDelay,
       PinEv.enable false, PinEv.sleep t] ∧
    EnableDelay = 1 * microsecond ∧
    ExecutionTimeDefault = 40 * microsecond ∧
    ExecutionTimeReturnHome = 1520 * microsecond ∧
    initSettleDelay = 10 * millisecond :=
  ⟨rfl, rfl, rfl, rfl, rfl⟩

/-- Claim C5: for every position up to 7, CreateChar issues exactly one
instruction write — the CGRAM-set instruction 0x40 or-ed with the position
shifted left by 3 — followed by exactly eight data writes holding the
glyph's rows; for every position above 7 it issues zero writes and changes
nothing. -/
theorem createChar_position_guard (p : Nat) (c : Character) :
    (p ≤ 7 →
      createCharOps p c =
        Op.write (0x40 ||| (p <<< 3)) RSInstruction ::
          (List.ofFn c).map (fun x => Op.write x RSData) ∧
      instrWrites (createCharOps p c) = 1 ∧
      dataWrites (createCharOps p c) = 8) ∧
    (7 < p → createCharOps p c = []) := by
  constructor
  · intro hp
    have hnot : ¬ p > 7 := by omega
    refine ⟨by simp [createCharOps, hnot], ?_, ?_⟩
    · simp [instrWrites, createCharOps, hnot, List.countP_cons, RSInstruction,
        List.countP_map, Function.comp_def, RSData]
    · simp [dataWrites, createCharOps, hnot, List.countP_cons, RSInstruction,
        List.countP_map, Function.comp_def, RSData]
  · intro hp
    simp [createCharOps, hp]

/-- Witness for claim C5 at the in-range position 2 and the out-of-range
position 9, on a concrete glyph. -/
theorem createChar_position_guard_w :
    instrWrites (createCharOps 2 glyph0) = 1 ∧
    dataWrites (createCharOps 2 glyph0) = 8 ∧
    createCharOps 9 glyph0 = [] :=
  ⟨((createChar_position_guard 2 glyph0).1 (by decide)).2.1,
   ((createChar_position_guard 2 glyph0).1 (by decide)).2.2,
   (createChar_position_guard 9 glyph0).2 (by decide)⟩

/-- Claim C6: construction with a data pin list whose length is neither 4
nor 8 fails with the pin-count error before any pin is configured, leaving
no partial state (the configuration trace is empty); with length 4 or 8 it
succeeds, building the LCD value and configuring RS, E and the data pins. -/
theorem new_pin_count (rs e : Nat) (data : List Nat) (w : Nat) :
    (data.length ≠ 4 ∧ data.length ≠ 8 →
      New rs e data w = (Except.error "LCD requires four or eight datapins", [])) ∧
    (data.length = 4 ∨ data.length = 8 →
      New rs e data w =
        (Except.ok ⟨rs, e, data, w⟩,
          CfgEv.output rs :: CfgEv.output e :: data.map CfgEv.output)) := by
  constructor
  · intro h
    simp [New, h]
  · intro h
    have hnot : ¬(data.length ≠ 4 ∧ data.length ≠ 8) := by tauto
    simp [New, hnot]

/-- Witness for claim C6: three data pins fail with the pin-count error and
an empty configuration trace; four data pins succeed. -/
theorem new_pin_count_w :
    New 1 2 [3, 4, 5] 16 = (Except.error "LCD requires four or eight datapins", []) ∧
    New 1 2 [3, 4, 5, 6] 16 =
      (Except.ok ⟨1, 2, [3, 4, 5, 6], 16⟩,
        [CfgEv.output 1, CfgEv.output 2, CfgEv.output 3, CfgEv.output 4,
         CfgEv.output 5, CfgEv.output 6]) :=
  ⟨(new_pin_count 1 2 [3, 4, 5] 16).1 (by decide),
   (new_pin_count 1 2 [3, 4, 5, 6] 16).2 (Or.inl (by decide))⟩

/-- Claim C7 counterexample: the claim asserts that negative offsets, and
hence skipped entries, occur when fewer than eight characters are supplied;
but with three supplied glyphs — fewer than eight — every computed offset is
non-negative, no entry is skipped, and all three glyphs are written, at
CGRAM positions 5, 6 and 7. -/
theorem setCustomCharacters_no_skip_cex :
    chars3.length = 3 ∧
    setCustomCharactersOps chars3 =
      createCharOps 5 glyph0 ++ createCharOps 6 glyph0 ++ createCharOps 7 glyph0 ∧
    instrWrites (setCustomCharactersOps chars3) = 3 ∧
    chars3.enum.all
      (fun p => !(customCharEntry chars3.length p.1 p.2).isEmpty) = true := by
  refine ⟨by decide, by decide, by decide, by decide⟩

/-- Claim C7 as amended: the loader maps the i-th of n supplied glyphs to
CGRAM position 8 - n + i and silently skips every entry whose computed offset
is negative; such negative offsets, and hence skips, occur precisely when
more than eight characters are supplied — the first n - 8 entries are then
skipped — while with eight or fewer characters every entry has a
non-negative offset and is written. -/
theorem setCustomCharacters_offsets (chars : List Character) :
    setCustomCharactersOps chars =
      chars.enum.flatMap (fun p => customCharEntry chars.length p.1 p.2) ∧
    (∀ i : Nat,
      ((8 : Int) - (chars.length : Int) + (i : Int) < 0 ↔ 8 + i < chars.length)) ∧
    (chars.length ≤ 8 → ∀ i < chars.length, ∀ c : Character,
      customCharEntry chars.length i c = createCharOps (8 - chars.length + i) c ∧
      customCharEntry chars.length i c ≠ []) ∧
    (8 < chars.length → ∀ c : Character, customCharEntry chars.length 0 c = []) := by
  refine ⟨rfl, ?_, ?_, ?_⟩
  · intro i
    omega
  · intro hn i hi c
    have hcond : ¬((8 : Int) - (chars.length : Int) + (i : Int) < 0) := by omega
    have htn : ((8 : Int) - (chars.length : Int) + (i : Int)).toNat =
        8 - chars.length + i := by omega
    have hpos : ¬(8 - chars.length + i > 7) := by omega
    constructor
    · simp [customCharEntry, hcond, htn]
    · simp [customCharEntry, hcond, htn, createCharOps, hpos]
  · intro hn c
    have hcond : (8 : Int) - (chars.length : Int) + ((0 : Nat) : Int) < 0 := by omega
    unfold customCharEntry
    rw [if_pos hcond]

/-- Witness for the amended claim C7: with three glyphs the first entry goes
to position 5 and is not skipped; with nine glyphs the first entry is
skipped. -/
theorem setCustomCharacters_offsets_w :
    customCharEntry 3 0 glyph0 = createCharOps 5 glyph0 ∧
    customCharEntry 3 0 glyph0 ≠ [] ∧
    customCharEntry 9 0 glyph0 = [] := by
  have h3 := (setCustomCharacters_offsets chars3).2.2.1 (by decide) 0 (by decide) glyph0
  have h9 := (setCustomCharacters_offsets chars9).2.2.2 (by decide) glyph0
  exact ⟨by simpa [chars3] using h3.1, by simpa [chars3] using h3.2,
    by simpa [chars9] using h9⟩

/-- Claim C9 counterexample: the claim asserts that for every input whose
byte length exceeds the line width exactly the first width bytes are kept;
but for the six-byte, two-rune input and width 4, fmt first pads by rune
count, so the kept bytes are two spaces followed by the first two bytes of
the input — not the input's first four bytes. -/
theorem writeLine_byte_trunc_cex :
    cjk2.length = 6 ∧
    formatLine 4 cjk2 ≠ cjk2.take 4 ∧
    formatLine 4 cjk2 = [0x20, 0x20, 0xE5, 0x95] := by
  refine ⟨by decide, by decide, by decide⟩

/-- Claim C9 as amended: WriteLine pads by rune count and truncates by bytes
— whenever the input's rune count is at least the line width no padding
occurs and exactly the first width bytes are kept; this byte truncation can
split a multi-byte UTF-8 character, and because the emission loop iterates
the decoded runes of the truncated byte string, the number of data writes
can be fewer than the line width: on the nine-byte three-rune input with
width 3, the kept three bytes decode to a single rune and produce a single
data write. -/
theorem writeLine_rune_pad_byte_trunc (width : Nat) (s : List Nat)
    (h : width ≤ runeCount s) :
    formatLine width s = s.take width ∧
    (decodeRunes (formatLine 3 cjk3)).length = 1 ∧
    dataWrites (writeLineOps 3 cjk3 Line1) = 1 := by
  refine ⟨?_, by decide, by decide⟩
  simp [formatLine, leftPad, Nat.sub_eq_zero_of_le h]

/-- Witness for the amended claim C9 on a three-byte ASCII input with width
2: the first two bytes are kept. -/
theorem writeLine_rune_pad_byte_trunc_w :
    formatLine 2 [0x68, 0x69, 0x6A] = [0x68, 0x69] := by
  have h := (writeLine_rune_pad_byte_trunc 2 [0x68, 0x69, 0x6A] (by decide)).1
  simpa using h

/-- Claim C10: for every line value other than Line1 (0x80) and Line2 (0xC0)
the Animate switch selects no per-line lock, so none is acquired and none is
released, yet the animation loop still runs and writes each frame using the
raw line value as the address instruction; the per-line locks are selected
exactly for Line1 and Line2. -/
theorem animate_lock_only_lines (width : Nat) (frames : List (List Nat))
    (line : Nat) (h1 : line ≠ Line1) (h2 : line ≠ Line2) :
    lockChoice line = none ∧
    animateEvs width frames line =
      frames.flatMap
        (fun f => [SyncEv.frame (writeLineOps width f line), SyncEv.frameDelay]) ++
        [SyncEv.signalDone] ∧
    (∀ f, (writeLineOps width f line).head? =
      some (Op.write line RSInstruction)) ∧
    lockChoice Line1 = some 1 ∧ lockChoice Line2 = some 2 := by
  have hnone : lockChoice line = none := by simp [lockChoice, h1, h2]
  refine ⟨hnone, ?_, fun f => rfl, by decide, by decide⟩
  simp [animateEvs, hnone]

/-- Witness for claim C10 at the line value 0x90, which is neither Line1 nor
Line2: no lock is selected and the frame is still written at address 0x90. -/
theorem animate_lock_only_lines_w :
    lockChoice 0x90 = none ∧
    animateEvs 1 [[0x68]] 0x90 =
      [SyncEv.frame (writeLineOps 1 [0x68] 0x90), SyncEv.frameDelay,
       SyncEv.signalDone] := by
  have h := animate_lock_only_lines 1 [[0x68]] 0x90 (by decide) (by decide)
  exact ⟨h.1, by simpa using h.2.1⟩

end LCD1602
